import Mathlib

/-!
# Verification of the Avalon AEC game engine (`AECSetup.py`, `CustomGameEnv`)

Shallow embedding of the game state machine (`CustomGameEnv.step`), the
observation encoder (`CustomGameEnv.observe`) and the reset routine of the
repository's `AECSetup.py`.  Python dicts are modelled as association lists
(insertion-ordered, overwrite-in-place, exactly like `dict`), numpy arrays as
`List`s, the float32 probability entries as exact rationals (the code only ever
stores and copies these values, it never computes with them, so any exact value
type is faithful), and every Python expression that can raise (out-of-range
list indexing, missing dict key) is modelled with `Option`: `step` returns
`none` exactly when the Python code would let an exception escape.
The random seating shuffle of `reset` is modelled by passing the shuffled
order in as a parameter, as the spec's design notes direct.
-/

/-- The six fixed roster members of `self.possible_agents`; in this design the
agent name is the role (`self.roles = {agent: agent}`). -/
inductive Agent where
  | Merlin
  | Morgana
  | Percival
  | Assassin
  | Generic_Good_1
  | Generic_Good_2
  deriving DecidableEq, Repr, Inhabited

/-- The phase strings of `self.phase`. -/
inductive Phase where
  | TEAM_PROPOSAL
  | TEAM_VOTE
  | QUEST
  | EVIL_DISCUSSION
  | ASSASSINATION
  deriving DecidableEq, Repr

open Agent Phase

/-- `self.possible_agents`: the fixed roster, in declaration order. -/
def possible_agents : List Agent :=
  [Merlin, Morgana, Percival, Assassin, Generic_Good_1, Generic_Good_2]

/-- `self.good_team` (set in `reset`). -/
def good_team : List Agent := [Merlin, Percival, Generic_Good_1, Generic_Good_2]

/-- `self.evil_team` (set in `reset`). -/
def evil_team : List Agent := [Morgana, Assassin]

/-- `self.mission_sizes = [2, 3, 4, 3, 4]` (set in `reset`). -/
def mission_sizes : List Nat := [2, 3, 4, 3, 4]

/-- Python `d[k]` / `d.get(k)` on a dict modelled as an association list. -/
def dictGet {β : Type} (d : List (Agent × β)) (k : Agent) : Option β :=
  (d.find? (fun p => p.1 == k)).map (fun p => p.2)

/-- Python `d[k] = v`: overwrite in place when the key is present (dicts keep
insertion order and have unique keys), append at the end otherwise. -/
def dictSet {β : Type} (d : List (Agent × β)) (k : Agent) (v : β) :
    List (Agent × β) :=
  match d with
  | [] => [(k, v)]
  | p :: tl => if p.1 = k then (k, v) :: tl else p :: dictSet tl k v

/-- Python `sum(d.values())`. -/
def sumValues (d : List (Agent × Nat)) : Nat := (d.map (fun p => p.2)).sum

/-- Python list indexing `l[i]` with an arbitrary (possibly negative) integer
index: negative indices in `[-len, -1]` wrap, everything else raises
(`none`). -/
def pyIndex {α : Type} (l : List α) (i : Int) : Option α :=
  if 0 ≤ i then l.get? i.toNat
  else if -i ≤ (l.length : Int) then l.get? (l.length - (-i).toNat)
  else none

/-- The action 4-tuple `(action_type, team_selection, vote_or_quest,
target_player)` handed to `step`. The target is an `Int` because the claims
probe out-of-range (including negative) assassination targets. -/
structure GameAction where
  action_type : Nat
  team_selection : List Nat
  vote_or_quest : Nat
  target_player : Int
  deriving DecidableEq, Repr

/-- The mutable fields of `CustomGameEnv` that `reset`/`step`/`observe`
touch.  `selector_idx` is the position of `agent_selection` inside the
(shuffled) `agents` list, maintained by the PettingZoo `agent_selector`
round-robin.  `truncations` is constantly `False` in this environment and is
therefore not carried. -/
structure GameState where
  agents : List Agent
  roles : List (Agent × Agent)
  mission_number : Nat
  mission_results : List Bool
  mission_fail_counts : List Nat
  leader_index : Nat
  current_mission_leader : Nat
  proposed_team : List Agent
  current_mission_team : List Agent
  reject_count : Nat
  evil_guesses_buffer : List (Agent × List ℚ)
  evil_merlin_votes : List (List ℚ)
  last_mission_outcome : Option (Nat × Bool × Nat)
  all_votes_history : List Nat
  who_chose_history : List Nat
  vote_buffer : List (Agent × Nat)
  quest_buffer : List (Agent × Nat)
  phase : Phase
  selector_idx : Nat
  terminations : List (Agent × Bool)
  rewards : List (Agent × Int)
  deriving DecidableEq, Repr

/-- `self.agent_selection`: the agent whose turn it is. -/
def currentAgent (s : GameState) : Agent :=
  s.agents.getD (s.selector_idx % s.agents.length) Merlin

/-- `self.agent_selection = self._agent_selector.next()`. -/
def advance (s : GameState) : GameState :=
  { s with selector_idx := (s.selector_idx + 1) % s.agents.length }

/-- `reset`, with the outcome `order` of `random.shuffle(self.agents)` passed
in explicitly.  The `rewards`/`terminations` dicts are built (over the roster)
before the shuffle, `roles` after it. -/
def resetState (order : List Agent) : GameState :=
  { agents := order
    roles := order.map (fun a => (a, a))
    mission_number := 1
    mission_results := []
    mission_fail_counts := []
    leader_index := possible_agents.indexOf (order.getD 0 Merlin)
    current_mission_leader := 0
    proposed_team := []
    current_mission_team := []
    reject_count := 0
    evil_guesses_buffer := []
    evil_merlin_votes := List.replicate 6 (List.replicate 6 (0 : ℚ))
    last_mission_outcome := none
    all_votes_history := []
    who_chose_history := []
    vote_buffer := []
    quest_buffer := []
    phase := .TEAM_PROPOSAL
    selector_idx := 0
    terminations := possible_agents.map (fun a => (a, false))
    rewards := possible_agents.map (fun a => (a, (0 : Int))) }

/-- One iteration of the terminal loop: mark `ag` terminated and pay it
`goodReward` if it is Good-faction, `-goodReward` otherwise. -/
def assignOne (goodReward : Int) (st : GameState) (ag : Agent) : GameState :=
  { st with
    terminations := dictSet st.terminations ag true
    rewards := (dictSet st.rewards ag
      (if ag ∈ good_team then goodReward else -goodReward)) }

/-- The terminal loop `for agent_name in self.agents: terminations[...] = True;
rewards[...] = ...` that appears verbatim at all four terminal branches of
`step`; `goodReward` is what a Good-faction agent receives (`-1` on an Evil
win, `+1` on a Good win), the other faction receives its negation. -/
def assignTerminal (goodReward : Int) (s : GameState) : GameState :=
  s.agents.foldl (assignOne goodReward) s

/-- `selected_indices = [i for i, selected in enumerate(team_selection) if
selected == 1]`. -/
def selectedIndices (ts : List Nat) : List Nat :=
  (ts.enum.filter (fun p => p.2 == 1)).map (fun p => p.1)

/-- The `TEAM_PROPOSAL` branch of `step` (after the dead-step guard).
`none` models the `IndexError`s the Python code would raise on an
out-of-range `leader_index`, `mission_number` or selected index. -/
def stepProposal (s : GameState) (a : GameAction) : Option GameState :=
  match possible_agents.get? s.leader_index with
  | none => none
  | some leader =>
    if currentAgent s ≠ leader then some (advance s)
    else if a.action_type = 0 then
      match mission_sizes.get? (s.mission_number - 1) with
      | none => none
      | some required =>
        if (selectedIndices a.team_selection).length ≠ required then
          some (advance s)
        else
          match (selectedIndices a.team_selection).mapM
              (fun i => possible_agents.get? i) with
          | none => none
          | some team =>
            some (advance { s with
              proposed_team := team
              current_mission_leader := s.leader_index
              phase := .TEAM_VOTE
              vote_buffer := [] })
    else some (advance s)

/-- `TEAM_VOTE`: `if action_type == 1: self.vote_buffer[agent] = vote_or_quest`. -/
def recordVote (s : GameState) (a : GameAction) : GameState :=
  if a.action_type = 1 then
    { s with vote_buffer := dictSet s.vote_buffer (currentAgent s) a.vote_or_quest }
  else s

/-- The vote-resolution block of `TEAM_VOTE`, entered when the buffer holds as
many entries as there are agents.  The `mapM` is the
`for agent_name in self.agents: ...append(self.vote_buffer[agent_name])` loop
(`none` = `KeyError`). -/
def resolveVote (s : GameState) : Option GameState :=
  if s.vote_buffer.length = s.agents.length then
    match s.agents.mapM (fun ag => dictGet s.vote_buffer ag) with
    | none => none
    | some votes =>
      if s.agents.length / 2 + 1 ≤ sumValues s.vote_buffer then
        some { s with
          all_votes_history := s.all_votes_history ++ votes
          current_mission_team := s.proposed_team
          reject_count := 0
          phase := .QUEST
          quest_buffer := [] }
      else if s.reject_count + 1 = 5 then
        some (assignTerminal (-1)
          { s with
            all_votes_history := s.all_votes_history ++ votes
            reject_count := s.reject_count + 1 })
      else
        some { s with
          all_votes_history := s.all_votes_history ++ votes
          reject_count := s.reject_count + 1
          leader_index := (s.leader_index + 1) % s.agents.length
          proposed_team := []
          phase := .TEAM_PROPOSAL }
  else some s

/-- The `TEAM_VOTE` branch of `step`: record, advance the selector, resolve. -/
def stepVote (s : GameState) (a : GameAction) : Option GameState :=
  resolveVote (advance (recordVote s a))

/-- `QUEST` recording: Good-faction members' submission is overridden to `1`. -/
def recordQuest (s : GameState) (a : GameAction) : GameState :=
  if a.action_type = 2 then
    { s with quest_buffer := (dictSet s.quest_buffer (currentAgent s)
        (if currentAgent s ∈ good_team then 1 else a.vote_or_quest)) }
  else s

/-- `fail_count = sum(1 for vote in self.quest_buffer.values() if vote == 0)`. -/
def failCount (d : List (Agent × Nat)) : Nat :=
  (d.filter (fun p => p.2 == 0)).length

/-- The mission success rule of `step`
(`len(self.possible_agents) >= 7 and self.mission_number == 4` tolerates one
fail, everything else requires zero fails). -/
def missionSuccessRule (numAgents missionNumber fc : Nat) : Bool :=
  if 7 ≤ numAgents ∧ missionNumber = 4 then fc < 2 else fc == 0

/-- The state after the four appends of the quest-resolution block
(mission result, fail count, `last_mission_outcome`, leader history). -/
def recordedQuestState (s : GameState) : GameState :=
  { s with
    mission_results := s.mission_results ++
      [missionSuccessRule possible_agents.length s.mission_number
        (failCount s.quest_buffer)]
    mission_fail_counts := s.mission_fail_counts ++ [failCount s.quest_buffer]
    last_mission_outcome := some (s.mission_number,
      missionSuccessRule possible_agents.length s.mission_number
        (failCount s.quest_buffer),
      failCount s.quest_buffer)
    who_chose_history := s.who_chose_history ++ [s.current_mission_leader] }

/-- `good_wins = sum(1 for result in self.mission_results if result)`. -/
def goodWins (s : GameState) : Nat := (s.mission_results.filter (fun r => r)).length

/-- `evil_wins = sum(1 for result in self.mission_results if not result)`. -/
def evilWins (s : GameState) : Nat := (s.mission_results.filter (fun r => !r)).length

/-- The quest-resolution block, entered when the quest buffer holds as many
entries as the frozen mission team has members. -/
def resolveQuest (s : GameState) : GameState :=
  if s.quest_buffer.length = s.current_mission_team.length then
    if goodWins (recordedQuestState s) = 3 then
      { recordedQuestState s with phase := .EVIL_DISCUSSION, evil_guesses_buffer := [] }
    else if evilWins (recordedQuestState s) = 3 then
      assignTerminal (-1) (recordedQuestState s)
    else
      { recordedQuestState s with
        mission_number := s.mission_number + 1
        leader_index := (s.leader_index + 1) % s.agents.length
        proposed_team := []
        current_mission_team := []
        reject_count := 0
        phase := .TEAM_PROPOSAL }
  else s

/-- The `QUEST` branch of `step`: non-members are skipped before resolution. -/
def stepQuest (s : GameState) (a : GameAction) : GameState :=
  if currentAgent s ∈ s.current_mission_team then
    resolveQuest (advance (recordQuest s a))
  else advance s

/-- `EVIL_DISCUSSION` recording: the `MultiBinary` vector is converted to
float probabilities (`np.array(team_selection, dtype=np.float32)`). -/
def recordGuess (s : GameState) (a : GameAction) : GameState :=
  if a.action_type = 3 then
    { s with evil_guesses_buffer := (dictSet s.evil_guesses_buffer (currentAgent s)
        (a.team_selection.map (fun x => (x : ℚ)))) }
  else s

/-- The discussion-resolution block: each buffered vector is written into the
row `self.possible_agents.index(agent_name)` of `evil_merlin_votes`. -/
def resolveGuesses (s : GameState) : GameState :=
  if s.evil_guesses_buffer.length = evil_team.length then
    { s with
      evil_merlin_votes := s.evil_guesses_buffer.foldl
        (fun m p => m.set (possible_agents.indexOf p.1) p.2) s.evil_merlin_votes
      phase := .ASSASSINATION }
  else s

/-- The `EVIL_DISCUSSION` branch of `step`. -/
def stepEvil (s : GameState) (a : GameAction) : GameState :=
  if currentAgent s ∈ evil_team then
    resolveGuesses (advance (recordGuess s a))
  else advance s

/-- The `ASSASSINATION` branch of `step`; `target_agent =
self.possible_agents[target_player]` is unguarded in the source, so an
out-of-range target makes the branch raise (`none`). -/
def stepAssassination (s : GameState) (a : GameAction) : Option GameState :=
  if dictGet s.roles (currentAgent s) ≠ some Assassin then some (advance s)
  else if a.action_type = 3 then
    match pyIndex possible_agents a.target_player with
    | none => none
    | some target =>
      if dictGet s.roles target = some Merlin then
        some (advance (assignTerminal (-1) s))
      else
        some (advance (assignTerminal 1 s))
  else some (advance s)

/-- `CustomGameEnv.step`.  The first guard is the dead-step check
(`self.truncations` is constantly false and is dropped); per the spec the
library's `_was_dead_step` passes the action through with no game-state
mutation.  `none` models an exception escaping `step`. -/
def step (s : GameState) (a : GameAction) : Option GameState :=
  match dictGet s.terminations (currentAgent s) with
  | none => none
  | some true => some s
  | some false =>
    match s.phase with
    | .TEAM_PROPOSAL => stepProposal s a
    | .TEAM_VOTE => stepVote s a
    | .QUEST => some (stepQuest s a)
    | .EVIL_DISCUSSION => some (stepEvil s a)
    | .ASSASSINATION => stepAssassination s a

/-- The numpy write loop `for i, x in enumerate(order): if f x: arr[i] = 1`
(used for `known_spies`, `percival_view` and `current_proposed_team`),
rendered recursively with the running index `i`. -/
def markLoop (f : Agent → Prop) [DecidablePred f] :
    List Agent → Nat → List Nat → List Nat
  | [], _, base => base
  | o :: os, i, base => markLoop f os (i + 1) (if f o then base.set i 1 else base)

/-- The numpy write loop `for i, v in enumerate(vs): arr[i] = v` (used for
the vote/leader/fail/result history fields), rendered recursively. -/
def storeLoop : List Nat → Nat → List Nat → List Nat
  | [], _, base => base
  | v :: vs, i, base => storeLoop vs (i + 1) (base.set i v)

/-- `relative_order = self.agents[agent_idx:] + self.agents[:agent_idx]`:
the seating order rotated so that the requesting agent sits at index 0. -/
def relativeOrder (s : GameState) (ag : Agent) : List Agent :=
  s.agents.drop (s.agents.indexOf ag) ++ s.agents.take (s.agents.indexOf ag)

/-- `m[i][j]` on the 6×6 `evil_merlin_votes` matrix. -/
def matGet (m : List (List ℚ)) (i j : Nat) : ℚ := (m.getD i []).getD j 0

/-- The dict returned by `CustomGameEnv.observe`. -/
structure Observation where
  known_spies : List Nat
  percival_view : List Nat
  all_prior_votes : List Nat
  who_choose_prior_mission : List Nat
  number_of_fails_per_prior_missions : List Nat
  whos_winning : List Nat
  current_proposed_team : List Nat
  who_choose_current_mission : Nat
  did_i_choose_current_team : Nat
  mission_number : Nat
  reject_count : Nat
  evil_merlin_guesses : List (List ℚ)
  deriving DecidableEq, Repr

/-- `CustomGameEnv.observe`. Note the two places where the source indexes
the *shuffled* `self.agents` list with an index that `step` interprets into
the fixed roster: `self.agents[self.leader_index % len(self.agents)]` (and
likewise for `who_chose_history` entries), and
`self.evil_merlin_votes[self.agents.index(...)][self.agents.index(...)]`;
both are embedded exactly as written.  The evil 6×6 double loop writes every
entry, hence the nested map. -/
def observe (s : GameState) (ag : Agent) : Observation :=
  { known_spies :=
      if ag ∈ evil_team ∨ dictGet s.roles ag = some Merlin then
        markLoop (fun o => o ∈ evil_team) (relativeOrder s ag) 0 (List.replicate 6 0)
      else List.replicate 6 0
    percival_view :=
      if dictGet s.roles ag = some Percival then
        markLoop (fun o => dictGet s.roles o = some Merlin ∨ dictGet s.roles o = some Morgana)
          (relativeOrder s ag) 0 (List.replicate 6 0)
      else List.replicate 6 0
    all_prior_votes := storeLoop (s.all_votes_history.take 150) 0 (List.replicate 150 0)
    who_choose_prior_mission :=
      storeLoop ((s.who_chose_history.take 25).map
        (fun li => (relativeOrder s ag).indexOf (s.agents.getD (li % s.agents.length) Merlin)))
        0 (List.replicate 25 0)
    number_of_fails_per_prior_missions := storeLoop s.mission_fail_counts 0 (List.replicate 5 0)
    whos_winning :=
      storeLoop (s.mission_results.map (fun r => if r then 2 else 0)) 0 (List.replicate 5 1)
    current_proposed_team :=
      markLoop (fun o => o ∈ s.proposed_team) (relativeOrder s ag) 0 (List.replicate 6 0)
    who_choose_current_mission :=
      (relativeOrder s ag).indexOf (s.agents.getD (s.leader_index % s.agents.length) Merlin)
    did_i_choose_current_team :=
      if s.agents.getD (s.leader_index % s.agents.length) Merlin = ag then 1 else 0
    mission_number := s.mission_number
    reject_count := s.reject_count
    evil_merlin_guesses :=
      if ag ∈ evil_team then
        (relativeOrder s ag).map (fun ea => (relativeOrder s ag).map
          (fun ta => matGet s.evil_merlin_votes (s.agents.indexOf ea) (s.agents.indexOf ta)))
      else List.replicate 6 (List.replicate 6 (0 : ℚ)) }

/-! ## Basic lemmas about the dict model -/

lemma dictGet_cons {β : Type} (p : Agent × β) (tl : List (Agent × β)) (k : Agent) :
    dictGet (p :: tl) k = if p.1 = k then some p.2 else dictGet tl k := by
  by_cases h : p.1 = k
  · rw [dictGet, List.find?_cons_of_pos _ (by simp [h]), if_pos h]; rfl
  · rw [dictGet, List.find?_cons_of_neg _ (by simp [h]), if_neg h]; rfl

lemma dictGet_set_self {β : Type} (d : List (Agent × β)) (k : Agent) (v : β) :
    dictGet (dictSet d k v) k = some v := by
  induction d with
  | nil => simp [dictGet, dictSet]
  | cons p tl ih =>
    by_cases h : p.1 = k
    · simp [dictSet, h, dictGet_cons]
    · simpa [dictSet, h, dictGet_cons] using ih

lemma dictGet_set_ne {β : Type} (d : List (Agent × β)) (k k' : Agent) (v : β)
    (h : k' ≠ k) : dictGet (dictSet d k v) k' = dictGet d k' := by
  induction d with
  | nil => simp [dictGet, dictSet, dictGet_cons, Ne.symm h]
  | cons p tl ih =>
    by_cases hp : p.1 = k
    · rw [show dictSet (p :: tl) k v = (k, v) :: tl by simp [dictSet, hp],
        dictGet_cons, dictGet_cons, hp, if_neg (Ne.symm h), if_neg (Ne.symm h)]
    · rw [show dictSet (p :: tl) k v = p :: dictSet tl k v by simp [dictSet, hp],
        dictGet_cons, dictGet_cons, ih]

lemma length_dictSet_le {β : Type} (d : List (Agent × β)) (k : Agent) (v : β) :
    d.length ≤ (dictSet d k v).length ∧ (dictSet d k v).length ≤ d.length + 1 := by
  induction d with
  | nil => simp [dictSet]
  | cons p tl ih =>
    by_cases h : p.1 = k
    · simp [dictSet, h]
    · simp only [dictSet, h, if_false, List.length_cons]
      omega

/-! ## The terminal assignment loop -/

lemma foldl_assignOne_shape (g : Int) :
    ∀ (l : List Agent) (s : GameState), ∃ t r,
      l.foldl (assignOne g) s = { s with terminations := t, rewards := r } := by
  intro l
  induction l with
  | nil => intro s; exact ⟨s.terminations, s.rewards, rfl⟩
  | cons a l ih =>
    intro s
    obtain ⟨t, r, h⟩ := ih (assignOne g s a)
    exact ⟨t, r, by rw [List.foldl_cons, h]; rfl⟩

lemma foldl_assignOne_get (g : Int) :
    ∀ (l : List Agent) (s : GameState) (k : Agent),
      (dictGet (l.foldl (assignOne g) s).terminations k =
        if k ∈ l then some true else dictGet s.terminations k) ∧
      (dictGet (l.foldl (assignOne g) s).rewards k =
        if k ∈ l then some (if k ∈ good_team then g else -g)
        else dictGet s.rewards k) := by
  intro l
  induction l with
  | nil => intro s k; simp
  | cons a l ih =>
    intro s k
    obtain ⟨ht, hr⟩ := ih (assignOne g s a) k
    by_cases hk : k ∈ l
    · constructor
      · rw [List.foldl_cons, ht]; simp [hk]
      · rw [List.foldl_cons, hr]; simp [hk]
    · by_cases hka : k = a
      · subst hka
        constructor
        · rw [List.foldl_cons, ht]
          simp [hk, assignOne, dictGet_set_self]
        · rw [List.foldl_cons, hr]
          simp [hk, assignOne, dictGet_set_self]
      · constructor
        · rw [List.foldl_cons, ht]
          simp [hk, hka, assignOne, dictGet_set_ne _ _ _ _ hka]
        · rw [List.foldl_cons, hr]
          simp [hk, hka, assignOne, dictGet_set_ne _ _ _ _ hka]

lemma assignTerminal_shape (g : Int) (s : GameState) : ∃ t r,
    assignTerminal g s = { s with terminations := t, rewards := r } :=
  foldl_assignOne_shape g s.agents s

lemma assignTerminal_term (g : Int) (s : GameState) (k : Agent) (hk : k ∈ s.agents) :
    dictGet (assignTerminal g s).terminations k = some true := by
  have := (foldl_assignOne_get g s.agents s k).1
  rw [assignTerminal, this, if_pos hk]

lemma assignTerminal_reward (g : Int) (s : GameState) (k : Agent) (hk : k ∈ s.agents) :
    dictGet (assignTerminal g s).rewards k =
      some (if k ∈ good_team then g else -g) := by
  have := (foldl_assignOne_get g s.agents s k).2
  rw [assignTerminal, this, if_pos hk]

/-! ## The scheduler -/

lemma currentAgent_mem (s : GameState) (h : s.agents ≠ []) :
    currentAgent s ∈ s.agents := by
  have hlen : 0 < s.agents.length := List.length_pos.mpr h
  have hlt : s.selector_idx % s.agents.length < s.agents.length :=
    Nat.mod_lt _ hlen
  rw [currentAgent, List.getD_eq_get?, List.get?_eq_get hlt]
  exact List.get_mem _ _ _

/-! ## The bitmap write loop of `observe` -/

lemma set_append_left_length {α : Type} (l1 l2 : List α) (v : α) :
    (l1 ++ l2).set l1.length v = l1 ++ l2.set 0 v := by
  induction l1 with
  | nil => simp
  | cons a l ih => simp [List.set, ih]

lemma markLoop_eq (f : Agent → Prop) [DecidablePred f] :
    ∀ (order : List Agent) (pre mid : List Nat),
      mid.length = order.length → (∀ x ∈ mid, x = 0) →
      markLoop f order pre.length (pre ++ mid) =
        pre ++ order.map (fun o => if f o then 1 else 0) := by
  intro order
  induction order with
  | nil =>
    intro pre mid hlen _
    rw [List.length_eq_zero.mp hlen]
    simp [markLoop]
  | cons o os ih =>
    intro pre mid hlen hzero
    cases mid with
    | nil => simp at hlen
    | cons m0 mid' =>
      have hm0 : m0 = 0 := hzero m0 (by simp)
      have hz' : ∀ x ∈ mid', x = 0 := fun x hx => hzero x (by simp [hx])
      have hlen' : mid'.length = os.length := by simpa using hlen
      by_cases hf : f o
      · rw [markLoop, if_pos hf, set_append_left_length,
          show (m0 :: mid').set 0 1 = 1 :: mid' from rfl,
          show (pre ++ (1 :: mid')) = (pre ++ [1]) ++ mid' by simp,
          show pre.length + 1 = (pre ++ [1]).length by simp,
          ih (pre ++ [1]) mid' hlen' hz']
        simp [hf]
      · rw [markLoop, if_neg hf,
          show (pre ++ (m0 :: mid')) = (pre ++ [m0]) ++ mid' by simp,
          show pre.length + 1 = (pre ++ [m0]).length by simp,
          ih (pre ++ [m0]) mid' hlen' hz']
        simp [hf, hm0]

lemma markLoop_zeros (f : Agent → Prop) [DecidablePred f] (order : List Agent)
    (h : order.length = 6) :
    markLoop f order 0 (List.replicate 6 0) =
      order.map (fun o => if f o then 1 else 0) := by
  have := markLoop_eq f order [] (List.replicate 6 0) (by simp [h]) (by simp)
  simpa using this

/-! ## Seat-relative reordering -/

lemma relativeOrder_perm (s : GameState) (ag : Agent) :
    (relativeOrder s ag).Perm s.agents := by
  refine List.Perm.trans List.perm_append_comm ?_
  rw [List.take_append_drop]

lemma relativeOrder_length (s : GameState) (ag : Agent) :
    (relativeOrder s ag).length = s.agents.length :=
  (relativeOrder_perm s ag).length_eq

/-! ## The identity role dict -/

lemma dictGet_map_pair (l : List Agent) (ag : Agent) :
    dictGet (l.map (fun a => (a, a))) ag = if ag ∈ l then some ag else none := by
  induction l with
  | nil => simp [dictGet]
  | cons a tl ih =>
    by_cases h : a = ag
    · simp [dictGet_cons, h]
    · simp only [List.map_cons, dictGet_cons, if_neg h, ih, List.mem_cons]
      simp [Ne.symm h]

/-! ## The reachable-state invariant -/

/-- Every agent in the seating order is flagged terminated. -/
def allTerminated (s : GameState) : Prop :=
  ∀ ag ∈ s.agents, dictGet s.terminations ag = some true

/-- The state invariant maintained by `reset` and `step`: the seating order is
a permutation of the roster, the role dict is the identity over it, and the
reject counter is bounded by 5 and only reaches 5 in a terminated game. -/
structure GameInv (s : GameState) : Prop where
  perm : s.agents.Perm possible_agents
  roles_id : s.roles = s.agents.map (fun a => (a, a))
  reject_le : s.reject_count ≤ 5
  reject_top : s.reject_count = 5 → allTerminated s

/-- States reachable from `reset` (under any shuffle outcome) by successful
steps. -/
inductive Reachable : GameState → Prop where
  | reset : ∀ order : List Agent, order.Perm possible_agents →
      Reachable (resetState order)
  | step : ∀ s a s', Reachable s → step s a = some s' → Reachable s'

lemma GameInv.of_eqFields {s t : GameState} (h : GameInv s)
    (ha : t.agents = s.agents) (hr : t.roles = s.roles)
    (hrc : t.reject_count = s.reject_count)
    (ht : t.terminations = s.terminations) : GameInv t := by
  refine ⟨ha ▸ h.perm, ?_, hrc ▸ h.reject_le, ?_⟩
  · rw [hr, ha, h.roles_id]
  · intro h5
    intro ag hag
    rw [ht]
    exact h.reject_top (hrc ▸ h5) ag (ha ▸ hag)

lemma GameInv.agents_ne_nil {s : GameState} (h : GameInv s) : s.agents ≠ [] := by
  intro he
  have := h.perm.length_eq
  rw [he] at this
  simp [possible_agents] at this

lemma GameInv.reject_lt_of_live {s : GameState} (h : GameInv s)
    (hlive : dictGet s.terminations (currentAgent s) = some false) :
    s.reject_count ≤ 4 := by
  rcases Nat.lt_or_ge s.reject_count 5 with h5 | h5
  · omega
  · exfalso
    have heq : s.reject_count = 5 := le_antisymm h.reject_le h5
    have := h.reject_top heq (currentAgent s) (currentAgent_mem s h.agents_ne_nil)
    rw [hlive] at this
    cases this

/-! ## Invariant preservation -/

lemma recordVote_fields (s : GameState) (a : GameAction) :
    (recordVote s a).agents = s.agents ∧ (recordVote s a).roles = s.roles ∧
    (recordVote s a).reject_count = s.reject_count ∧
    (recordVote s a).terminations = s.terminations := by
  unfold recordVote; split <;> exact ⟨rfl, rfl, rfl, rfl⟩

lemma recordQuest_fields (s : GameState) (a : GameAction) :
    (recordQuest s a).agents = s.agents ∧ (recordQuest s a).roles = s.roles ∧
    (recordQuest s a).reject_count = s.reject_count ∧
    (recordQuest s a).terminations = s.terminations := by
  unfold recordQuest; split <;> exact ⟨rfl, rfl, rfl, rfl⟩

lemma recordGuess_fields (s : GameState) (a : GameAction) :
    (recordGuess s a).agents = s.agents ∧ (recordGuess s a).roles = s.roles ∧
    (recordGuess s a).reject_count = s.reject_count ∧
    (recordGuess s a).terminations = s.terminations := by
  unfold recordGuess; split <;> exact ⟨rfl, rfl, rfl, rfl⟩

lemma GameInv.mk0 {s t : GameState} (h : GameInv s)
    (ha : t.agents = s.agents) (hr : t.roles = s.roles)
    (hrc : t.reject_count = 0) : GameInv t := by
  refine ⟨ha ▸ h.perm, ?_, by omega, by intro h5; omega⟩
  rw [hr, ha, h.roles_id]

lemma inv_assignTerminal {s t : GameState} (g : Int) (h : GameInv s)
    (ha : t.agents = s.agents) (hr : t.roles = s.roles)
    (hle : t.reject_count ≤ 5) : GameInv (assignTerminal g t) := by
  obtain ⟨tt, rr, hshape⟩ := assignTerminal_shape g t
  refine ⟨?_, ?_, ?_, ?_⟩
  · rw [hshape]; exact ha ▸ h.perm
  · rw [hshape]; show t.roles = t.agents.map _; rw [hr, ha, h.roles_id]
  · rw [hshape]; exact hle
  · intro _ ag hag
    apply assignTerminal_term
    rw [hshape] at hag; exact hag

lemma inv_stepProposal {s : GameState} {a : GameAction} {s' : GameState}
    (h : GameInv s) (hstep : stepProposal s a = some s') : GameInv s' := by
  unfold stepProposal at hstep
  split at hstep
  · exact Option.noConfusion hstep
  · split at hstep
    · cases hstep; exact h.of_eqFields rfl rfl rfl rfl
    · split at hstep
      · split at hstep
        · exact Option.noConfusion hstep
        · split at hstep
          · cases hstep; exact h.of_eqFields rfl rfl rfl rfl
          · split at hstep
            · exact Option.noConfusion hstep
            · cases hstep; exact h.of_eqFields rfl rfl rfl rfl
      · cases hstep; exact h.of_eqFields rfl rfl rfl rfl

lemma inv_resolveVote {s s' : GameState} (h : GameInv s)
    (h4 : s.reject_count ≤ 4) (hstep : resolveVote s = some s') : GameInv s' := by
  unfold resolveVote at hstep
  split at hstep
  · split at hstep
    · exact Option.noConfusion hstep
    · split at hstep
      · cases hstep; exact h.mk0 rfl rfl rfl
      · split at hstep
        case isTrue h5 =>
          cases hstep
          exact inv_assignTerminal (-1) h rfl rfl (by show s.reject_count + 1 ≤ 5; omega)
        case isFalse h5 =>
          cases hstep
          exact ⟨h.perm, h.roles_id,
            by show s.reject_count + 1 ≤ 5; omega,
            by intro hh; exact absurd hh h5⟩
  · cases hstep; exact h

lemma inv_stepVote {s : GameState} {a : GameAction} {s' : GameState}
    (h : GameInv s) (h4 : s.reject_count ≤ 4)
    (hstep : stepVote s a = some s') : GameInv s' := by
  obtain ⟨ha, hr, hc, ht⟩ := recordVote_fields s a
  have h2 : GameInv (advance (recordVote s a)) :=
    GameInv.of_eqFields h ha hr hc ht
  have h24 : (advance (recordVote s a)).reject_count ≤ 4 := hc.symm ▸ h4
  exact inv_resolveVote h2 h24 hstep

lemma inv_resolveQuest {s : GameState} (h : GameInv s) :
    GameInv (resolveQuest s) := by
  unfold resolveQuest
  split
  · split
    · exact h.of_eqFields rfl rfl rfl rfl
    · split
      · exact inv_assignTerminal (-1) h rfl rfl h.reject_le
      · exact h.mk0 rfl rfl rfl
  · exact h

lemma inv_stepQuest {s : GameState} {a : GameAction} (h : GameInv s) :
    GameInv (stepQuest s a) := by
  unfold stepQuest
  split
  · obtain ⟨ha, hr, hc, ht⟩ := recordQuest_fields s a
    exact inv_resolveQuest (h.of_eqFields ha hr hc ht)
  · exact h.of_eqFields rfl rfl rfl rfl

lemma inv_stepEvil {s : GameState} {a : GameAction} (h : GameInv s) :
    GameInv (stepEvil s a) := by
  unfold stepEvil
  split
  · obtain ⟨ha, hr, hc, ht⟩ := recordGuess_fields s a
    have h2 : GameInv (advance (recordGuess s a)) := h.of_eqFields ha hr hc ht
    unfold resolveGuesses
    split
    · exact h2.of_eqFields rfl rfl rfl rfl
    · exact h2
  · exact h.of_eqFields rfl rfl rfl rfl

lemma inv_stepAssassination {s : GameState} {a : GameAction} {s' : GameState}
    (h : GameInv s) (hstep : stepAssassination s a = some s') : GameInv s' := by
  unfold stepAssassination at hstep
  split at hstep
  · cases hstep; exact h.of_eqFields rfl rfl rfl rfl
  · split at hstep
    · split at hstep
      · exact Option.noConfusion hstep
      · split at hstep
        · cases hstep
          exact (inv_assignTerminal (-1) h rfl rfl h.reject_le).of_eqFields rfl rfl rfl rfl
        · cases hstep
          exact (inv_assignTerminal 1 h rfl rfl h.reject_le).of_eqFields rfl rfl rfl rfl
    · cases hstep; exact h.of_eqFields rfl rfl rfl rfl

lemma inv_step {s : GameState} {a : GameAction} {s' : GameState}
    (h : GameInv s) (hstep : step s a = some s') : GameInv s' := by
  unfold step at hstep
  split at hstep
  · exact Option.noConfusion hstep
  · cases hstep; exact h
  case _ hlive =>
    have h4 := h.reject_lt_of_live hlive
    split at hstep
    · exact inv_stepProposal h hstep
    · exact inv_stepVote h h4 hstep
    · cases hstep; exact inv_stepQuest h
    · cases hstep; exact inv_stepEvil h
    · exact inv_stepAssassination h hstep

lemma inv_reset (order : List Agent) (h : order.Perm possible_agents) :
    GameInv (resetState order) := by
  refine ⟨h, rfl, ?_, ?_⟩
  · show (0 : Nat) ≤ 5; omega
  · intro h5
    exact absurd (show (0 : Nat) = 5 from h5) (by omega)

lemma reachable_inv {s : GameState} (h : Reachable s) : GameInv s := by
  induction h with
  | reset order ho => exact inv_reset order ho
  | step s a s' _ hstep ih => exact inv_step ih hstep

/-! ## Concrete states used to evaluate the code at specific inputs -/

/-- A seating shuffle that puts Morgana in seat 0 (so Morgana is the initial
leader: `leader_index = possible_agents.index(Morgana) = 1`). -/
def orderC2 : List Agent :=
  [Morgana, Merlin, Percival, Assassin, Generic_Good_1, Generic_Good_2]

/-- A seating shuffle on which the seating position and the roster position
of the evil agents differ (`Assassin`: roster index 3, seat 0). -/
def orderC3 : List Agent :=
  [Assassin, Morgana, Percival, Merlin, Generic_Good_1, Generic_Good_2]

/-- The `EVIL_DISCUSSION` state reached once Morgana has already submitted
her probability vector and the Assassin (seat 0) is about to submit his. -/
def stateC3 : GameState :=
  { resetState orderC3 with
    phase := .EVIL_DISCUSSION
    evil_guesses_buffer := [(Morgana, [0, 0, 0, 0, 0, 1])]
    selector_idx := 0 }

/-- The Assassin's discussion action: a probability vector with all mass on
entry 0. -/
def guessC3 : GameAction := ⟨3, [1, 0, 0, 0, 0, 0], 0, 0⟩

/-- The `ASSASSINATION` state (identity seating) with the Assassin (seat 3)
to act. -/
def stateC4 : GameState :=
  { resetState possible_agents with phase := .ASSASSINATION, selector_idx := 3 }

/-- A `TEAM_VOTE` state (identity seating, mission-1 team proposed) in which
five approval votes are already buffered and the sixth voter is to act. -/
def stateC10 : GameState :=
  { resetState possible_agents with
    phase := .TEAM_VOTE
    proposed_team := [Merlin, Morgana]
    selector_idx := 5
    vote_buffer :=
      [(Merlin, 1), (Morgana, 1), (Percival, 1), (Assassin, 1), (Generic_Good_1, 1)] }

/-- **C2**: refuted on the code.  In the reset state with seating
`[Morgana, Merlin, ...]` the state machine's leader is
`possible_agents[leader_index] = Morgana` — the fourth conjunct shows `step`
accepts Morgana's proposal — so `observe(Morgana)` ought to report the leader
at seat-relative position 0 with `did_i_choose_current_team = 1`; instead
`observe` evaluates `self.agents[leader_index] = Merlin` and reports position
1 and `did_i_choose_current_team = 0`. -/
theorem C2_leader_mismatch :
    possible_agents.get? (resetState orderC2).leader_index = some Morgana ∧
    currentAgent (resetState orderC2) = Morgana ∧
    (observe (resetState orderC2) Morgana).who_choose_current_mission = 1 ∧
    (observe (resetState orderC2) Morgana).did_i_choose_current_team = 0 ∧
    ((step (resetState orderC2) ⟨0, [1, 1, 0, 0, 0, 0], 0, 0⟩).map GameState.phase)
      = some .TEAM_VOTE := by
  decide

/-- **C3**: refuted on the code.  In `stateC3` the Assassin submits the
nonzero probability vector `[1,0,0,0,0,0]`; the resolution stores it at
roster row `possible_agents.index(Assassin) = 3` (second conjunct), but
`observe(Morgana)` reads the Assassin's row through
`self.agents.index(Assassin) = 0`, so the fellow-evil observer sees an
all-zero row at the Assassin's seat-relative position 5 (first conjunct) —
the axes are not remapped from where `step` stored the vectors. -/
theorem C3_guess_mismatch :
    ((step stateC3 guessC3).map
        (fun t => (observe t Morgana).evil_merlin_guesses.getD 5 []))
      = some (List.replicate 6 (0 : ℚ)) ∧
    ((step stateC3 guessC3).map (fun t => t.evil_merlin_votes.getD 3 []))
      = some [(1 : ℚ), 0, 0, 0, 0, 0] ∧
    ((step stateC3 guessC3).map GameState.phase) = some .ASSASSINATION := by
  decide

/-- **C4**: refuted on the code.  With the Assassin to act in the
`ASSASSINATION` phase, the assassinate action with target index 6 (outside
the 6-agent roster) evaluates `self.possible_agents[6]` unguarded, so an
`IndexError` escapes `step` (`none` in the embedding) instead of the claimed
no-op; an in-range target (second conjunct) proceeds normally. -/
theorem C4_out_of_range_crash :
    step stateC4 ⟨3, [0, 0, 0, 0, 0, 0], 0, 6⟩ = none ∧
    (step stateC4 ⟨3, [0, 0, 0, 0, 0, 0], 0, 2⟩).isSome = true := by
  decide

/-- **C10**, counterexample: immediately after a vote resolution the vote
buffer is *not* empty.  In `stateC10` the sixth approval vote resolves the
proposal (the votes are appended to the history and the phase moves to
`QUEST`), yet the vote buffer still holds all six entries — it is only
cleared later, when the next valid proposal is recorded. -/
theorem C10_counterexample :
    ((step stateC10 ⟨1, [], 1, 0⟩).map
        (fun t => (t.phase, t.vote_buffer.length, t.all_votes_history.length)))
      = some (.QUEST, 6, 6) := by
  decide

/-! ## Reducing `step` for a live agent in a known phase -/

lemma step_eq_proposal (s : GameState) (a : GameAction)
    (hlive : dictGet s.terminations (currentAgent s) = some false)
    (hphase : s.phase = .TEAM_PROPOSAL) : step s a = stepProposal s a := by
  unfold step; rw [hlive, hphase]

lemma step_eq_vote (s : GameState) (a : GameAction)
    (hlive : dictGet s.terminations (currentAgent s) = some false)
    (hphase : s.phase = .TEAM_VOTE) : step s a = stepVote s a := by
  unfold step; rw [hlive, hphase]

lemma step_eq_quest (s : GameState) (a : GameAction)
    (hlive : dictGet s.terminations (currentAgent s) = some false)
    (hphase : s.phase = .QUEST) : step s a = some (stepQuest s a) := by
  unfold step; rw [hlive, hphase]

lemma step_eq_evil (s : GameState) (a : GameAction)
    (hlive : dictGet s.terminations (currentAgent s) = some false)
    (hphase : s.phase = .EVIL_DISCUSSION) : step s a = some (stepEvil s a) := by
  unfold step; rw [hlive, hphase]

lemma step_eq_assassination (s : GameState) (a : GameAction)
    (hlive : dictGet s.terminations (currentAgent s) = some false)
    (hphase : s.phase = .ASSASSINATION) : step s a = stepAssassination s a := by
  unfold step; rw [hlive, hphase]

/-! ## C6: quest submissions of Good-faction members -/

lemma resolveQuest_quest_buffer (s : GameState) :
    (resolveQuest s).quest_buffer = s.quest_buffer := by
  unfold resolveQuest
  split
  · split
    · rfl
    · split
      · obtain ⟨t, r, hshape⟩ := assignTerminal_shape (-1) (recordedQuestState s)
        rw [hshape]
        rfl
      · rfl
  · rfl

/-- **C6**: in the `QUEST` phase a Good-faction team member's submission is
recorded as success (`1`) regardless of the submitted `vote_or_quest` value,
while an Evil-faction member's value is recorded as submitted; in particular
the recorded value for a Good agent is never the fail value `0`. -/
theorem C6_good_cannot_fail (s : GameState) (a : GameAction) (s' : GameState)
    (hphase : s.phase = .QUEST)
    (hlive : dictGet s.terminations (currentAgent s) = some false)
    (hmem : currentAgent s ∈ s.current_mission_team)
    (htag : a.action_type = 2)
    (hstep : step s a = some s') :
    s'.quest_buffer = dictSet s.quest_buffer (currentAgent s)
      (if currentAgent s ∈ good_team then 1 else a.vote_or_quest) ∧
    (currentAgent s ∈ good_team →
      dictGet s'.quest_buffer (currentAgent s) = some 1) := by
  rw [step_eq_quest s a hlive hphase] at hstep
  cases hstep
  have hbuf : (stepQuest s a).quest_buffer =
      dictSet s.quest_buffer (currentAgent s)
        (if currentAgent s ∈ good_team then 1 else a.vote_or_quest) := by
    unfold stepQuest
    rw [if_pos hmem, resolveQuest_quest_buffer]
    show (recordQuest s a).quest_buffer = _
    unfold recordQuest
    rw [if_pos htag]
  refine ⟨hbuf, fun hgood => ?_⟩
  rw [hbuf, if_pos hgood]
  exact dictGet_set_self _ _ _

/-- A `QUEST` state (identity seating) with team `[Merlin, Morgana]`, an
empty quest buffer and Merlin to act. -/
def stateC6 : GameState :=
  { resetState possible_agents with
    phase := .QUEST
    current_mission_team := [Merlin, Morgana] }

/-- The successor of `stateC6` when Merlin plays a quest card with value 0:
the buffer records `1` anyway. -/
def stateC6' : GameState :=
  { stateC6 with quest_buffer := [(Merlin, 1)], selector_idx := 1 }

/-- Witness for `C6_good_cannot_fail`: Merlin (Good) submits the fail value
`0`, yet the buffer records `1`. -/
theorem C6_good_cannot_fail_witness :
    step stateC6 ⟨2, [], 0, 0⟩ = some stateC6' ∧
    stateC6'.quest_buffer = dictSet stateC6.quest_buffer (currentAgent stateC6)
      (if currentAgent stateC6 ∈ good_team then 1 else 0) ∧
    dictGet stateC6'.quest_buffer (currentAgent stateC6) = some 1 :=
  ⟨by decide,
    (C6_good_cannot_fail stateC6 ⟨2, [], 0, 0⟩ stateC6'
      (by decide) (by decide) (by decide) (by decide) (by decide)).1,
    (C6_good_cannot_fail stateC6 ⟨2, [], 0, 0⟩ stateC6'
      (by decide) (by decide) (by decide) (by decide) (by decide)).2 (by decide)⟩

/-! ## C5: the mission success rule -/

lemma recordQuest_keeps (s : GameState) (a : GameAction) :
    (recordQuest s a).mission_results = s.mission_results ∧
    (recordQuest s a).mission_fail_counts = s.mission_fail_counts ∧
    (recordQuest s a).mission_number = s.mission_number := by
  unfold recordQuest; split <;> exact ⟨rfl, rfl, rfl⟩

lemma resolveQuest_not_full (s : GameState)
    (h : ¬ s.quest_buffer.length = s.current_mission_team.length) :
    resolveQuest s = s := by
  unfold resolveQuest; rw [if_neg h]

lemma resolveQuest_records (s : GameState)
    (h : s.quest_buffer.length = s.current_mission_team.length) :
    (resolveQuest s).mission_results = s.mission_results ++
      [missionSuccessRule possible_agents.length s.mission_number
        (failCount s.quest_buffer)] ∧
    (resolveQuest s).mission_fail_counts =
      s.mission_fail_counts ++ [failCount s.quest_buffer] := by
  unfold resolveQuest
  rw [if_pos h]
  split
  · exact ⟨rfl, rfl⟩
  · split
    · obtain ⟨t, r, hshape⟩ := assignTerminal_shape (-1) (recordedQuestState s)
      rw [hshape]
      exact ⟨rfl, rfl⟩
    · exact ⟨rfl, rfl⟩

/-- **C5**: whenever the quest buffer fills to the frozen team's size and a
mission is resolved, the appended success flag is
`missionSuccessRule |possible_agents| mission_number fail_count`; with the
fixed 6-agent roster this flag is `true` exactly when the fail count is `0`,
while the rule's other branch (`≥ 7` agents and mission 4) tolerates one
fail (`fail count < 2`). -/
theorem C5_mission_success_rule (s : GameState) (a : GameAction)
    (s' : GameState) (fc : Nat)
    (hphase : s.phase = .QUEST)
    (hlive : dictGet s.terminations (currentAgent s) = some false)
    (hstep : step s a = some s')
    (hres : s'.mission_fail_counts = s.mission_fail_counts ++ [fc]) :
    s'.mission_results = s.mission_results ++
      [missionSuccessRule possible_agents.length s.mission_number fc] ∧
    (missionSuccessRule possible_agents.length s.mission_number fc = true ↔ fc = 0) ∧
    (∀ n m f, 7 ≤ n → m = 4 → (missionSuccessRule n m f = true ↔ f < 2)) ∧
    (∀ n m f, ¬ (7 ≤ n ∧ m = 4) → (missionSuccessRule n m f = true ↔ f = 0)) := by
  have hrule6 : ∀ m f, missionSuccessRule possible_agents.length m f = true ↔ f = 0 := by
    intro m f
    unfold missionSuccessRule
    rw [show possible_agents.length = 6 from rfl,
      if_neg (by rintro ⟨h7, -⟩; omega)]
    simp
  refine ⟨?_, hrule6 _ _, ?_, ?_⟩
  · rw [step_eq_quest s a hlive hphase] at hstep
    cases hstep
    by_cases hmem : currentAgent s ∈ s.current_mission_team
    · have hsq : stepQuest s a = resolveQuest (advance (recordQuest s a)) := by
        unfold stepQuest; rw [if_pos hmem]
      obtain ⟨hkr, hkf, hkm⟩ := recordQuest_keeps s a
      rw [hsq] at hres ⊢
      by_cases hfull : (advance (recordQuest s a)).quest_buffer.length =
          (advance (recordQuest s a)).current_mission_team.length
      · obtain ⟨h1, h2⟩ := resolveQuest_records _ hfull
        rw [h2] at hres
        rw [show (advance (recordQuest s a)).mission_fail_counts =
            s.mission_fail_counts from hkf] at hres
        have hfc : failCount (advance (recordQuest s a)).quest_buffer = fc := by
          have := List.append_cancel_left hres
          simpa using this
        rw [h1, hfc,
          show (advance (recordQuest s a)).mission_results = s.mission_results from hkr,
          show (advance (recordQuest s a)).mission_number = s.mission_number from hkm]
      · rw [resolveQuest_not_full _ hfull] at hres
        rw [show (advance (recordQuest s a)).mission_fail_counts =
            s.mission_fail_counts from hkf] at hres
        have := congrArg List.length hres
        simp at this
    · have hsq : stepQuest s a = advance s := by
        unfold stepQuest; rw [if_neg hmem]
      rw [hsq, show (advance s).mission_fail_counts = s.mission_fail_counts from rfl]
        at hres
      have := congrArg List.length hres
      simp at this
  · intro n m f h7 hm
    unfold missionSuccessRule
    rw [if_pos ⟨h7, hm⟩]
    simp
  · intro n m f hn
    unfold missionSuccessRule
    rw [if_neg hn]
    simp

/-- A `QUEST` state (identity seating, mission 1, team `[Merlin, Morgana]`)
with Merlin's success card already buffered and Morgana to act. -/
def stateC5 : GameState :=
  { resetState possible_agents with
    phase := .QUEST
    current_mission_team := [Merlin, Morgana]
    quest_buffer := [(Merlin, 1)]
    selector_idx := 1 }

/-- The successor of `stateC5` after Morgana plays a fail card: the mission
resolves with one fail and is recorded as failed. -/
def stateC5' : GameState :=
  { resetState possible_agents with
    phase := .TEAM_PROPOSAL
    mission_number := 2
    mission_results := [false]
    mission_fail_counts := [1]
    leader_index := 1
    last_mission_outcome := some (1, false, 1)
    who_chose_history := [0]
    quest_buffer := [(Merlin, 1), (Morgana, 0)]
    selector_idx := 2 }

/-- Witness for `C5_mission_success_rule`: Morgana fails mission 1, the fail
count is 1 and the recorded flag is `missionSuccessRule 6 1 1 = false`. -/
theorem C5_mission_success_rule_witness :
    step stateC5 ⟨2, [], 0, 0⟩ = some stateC5' ∧
    stateC5'.mission_results = stateC5.mission_results ++
      [missionSuccessRule possible_agents.length stateC5.mission_number 1] ∧
    (missionSuccessRule possible_agents.length stateC5.mission_number 1 = true ↔
      (1 : Nat) = 0) :=
  ⟨by decide,
    (C5_mission_success_rule stateC5 ⟨2, [], 0, 0⟩ stateC5' 1
      (by decide) (by decide) (by decide) (by decide)).1,
    (C5_mission_success_rule stateC5 ⟨2, [], 0, 0⟩ stateC5' 1
      (by decide) (by decide) (by decide) (by decide)).2.1⟩

/-! ## C9: malformed / ineligible actions are advance-only no-ops -/

lemma stepProposal_not_leader (s : GameState) (a : GameAction) (L : Agent)
    (hL : possible_agents.get? s.leader_index = some L)
    (hne : currentAgent s ≠ L) : stepProposal s a = some (advance s) := by
  unfold stepProposal
  split
  case _ heq => rw [hL] at heq; cases heq
  case _ leader heq =>
    rw [hL] at heq
    cases heq
    rw [if_pos hne]

lemma stepProposal_wrong_tag (s : GameState) (a : GameAction) (L : Agent)
    (hL : possible_agents.get? s.leader_index = some L)
    (htag : a.action_type ≠ 0) : stepProposal s a = some (advance s) := by
  unfold stepProposal
  split
  case _ heq => rw [hL] at heq; cases heq
  case _ leader heq =>
    by_cases hne : currentAgent s ≠ leader
    · rw [if_pos hne]
    · rw [if_neg hne, if_neg htag]

lemma stepProposal_wrong_size (s : GameState) (a : GameAction) (L : Agent)
    (req : Nat)
    (hL : possible_agents.get? s.leader_index = some L)
    (hreq : mission_sizes.get? (s.mission_number - 1) = some req)
    (hsize : (selectedIndices a.team_selection).length ≠ req) :
    stepProposal s a = some (advance s) := by
  unfold stepProposal
  split
  case _ heq => rw [hL] at heq; cases heq
  case _ leader heq =>
    by_cases hne : currentAgent s ≠ leader
    · rw [if_pos hne]
    · rw [if_neg hne]
      by_cases htag : a.action_type = 0
      · rw [if_pos htag]
        split
        case _ heq2 => rw [hreq] at heq2; cases heq2
        case _ req2 heq2 =>
          rw [hreq] at heq2
          cases heq2
          rw [if_pos hsize]
      · rw [if_neg htag]

lemma recordVote_wrong_tag (s : GameState) (a : GameAction)
    (htag : a.action_type ≠ 1) : recordVote s a = s := by
  unfold recordVote; rw [if_neg htag]

lemma resolveVote_not_full (s : GameState)
    (h : s.vote_buffer.length ≠ s.agents.length) : resolveVote s = some s := by
  unfold resolveVote; rw [if_neg h]

lemma stepVote_wrong_tag (s : GameState) (a : GameAction)
    (htag : a.action_type ≠ 1)
    (hfull : s.vote_buffer.length ≠ s.agents.length) :
    stepVote s a = some (advance s) := by
  unfold stepVote
  rw [recordVote_wrong_tag s a htag]
  exact resolveVote_not_full (advance s) hfull

lemma recordQuest_wrong_tag (s : GameState) (a : GameAction)
    (htag : a.action_type ≠ 2) : recordQuest s a = s := by
  unfold recordQuest; rw [if_neg htag]

lemma recordGuess_wrong_tag (s : GameState) (a : GameAction)
    (htag : a.action_type ≠ 3) : recordGuess s a = s := by
  unfold recordGuess; rw [if_neg htag]

lemma resolveGuesses_not_full (s : GameState)
    (h : s.evil_guesses_buffer.length ≠ evil_team.length) :
    resolveGuesses s = s := by
  unfold resolveGuesses; rw [if_neg h]

/-- **C9**: in every phase, an action that is malformed for the phase or
submitted by an ineligible agent (non-leader proposal, wrong-size team,
non-member quest card, non-Evil guess, non-Assassin shot, wrong action tag —
with the collection buffers not yet full, as in every live reachable state)
raises no error and leaves the state unchanged except that the scheduler
advances by exactly one agent. -/
theorem C9_invalid_action_noop (s : GameState) (a : GameAction)
    (hlive : dictGet s.terminations (currentAgent s) = some false)
    (hmal :
      (s.phase = .TEAM_PROPOSAL ∧ ∃ L, possible_agents.get? s.leader_index = some L ∧
        (currentAgent s ≠ L ∨
         (∃ req, mission_sizes.get? (s.mission_number - 1) = some req ∧
           (selectedIndices a.team_selection).length ≠ req) ∨
         a.action_type ≠ 0)) ∨
      (s.phase = .TEAM_VOTE ∧ a.action_type ≠ 1 ∧
        s.vote_buffer.length ≠ s.agents.length) ∨
      (s.phase = .QUEST ∧ (currentAgent s ∉ s.current_mission_team ∨
        (a.action_type ≠ 2 ∧ s.quest_buffer.length ≠ s.current_mission_team.length))) ∨
      (s.phase = .EVIL_DISCUSSION ∧ (currentAgent s ∉ evil_team ∨
        (a.action_type ≠ 3 ∧ s.evil_guesses_buffer.length ≠ evil_team.length))) ∨
      (s.phase = .ASSASSINATION ∧
        (dictGet s.roles (currentAgent s) ≠ some Assassin ∨ a.action_type ≠ 3))) :
    step s a = some { s with selector_idx := (s.selector_idx + 1) % s.agents.length } := by
  rcases hmal with ⟨hphase, L, hL, hcase⟩ | ⟨hphase, htag, hfull⟩ |
    ⟨hphase, hcase⟩ | ⟨hphase, hcase⟩ | ⟨hphase, hcase⟩
  · rw [step_eq_proposal s a hlive hphase]
    rcases hcase with hne | ⟨req, hreq, hsize⟩ | htag
    · exact stepProposal_not_leader s a L hL hne
    · exact stepProposal_wrong_size s a L req hL hreq hsize
    · exact stepProposal_wrong_tag s a L hL htag
  · rw [step_eq_vote s a hlive hphase]
    exact stepVote_wrong_tag s a htag hfull
  · rw [step_eq_quest s a hlive hphase]
    rcases hcase with hmem | ⟨htag, hfull⟩
    · unfold stepQuest
      rw [if_neg hmem]
      rfl
    · by_cases hmem : currentAgent s ∈ s.current_mission_team
      · unfold stepQuest
        rw [if_pos hmem, recordQuest_wrong_tag s a htag,
          resolveQuest_not_full (advance s) hfull]
        rfl
      · unfold stepQuest
        rw [if_neg hmem]
        rfl
  · rw [step_eq_evil s a hlive hphase]
    rcases hcase with hmem | ⟨htag, hfull⟩
    · unfold stepEvil
      rw [if_neg hmem]
      rfl
    · by_cases hmem : currentAgent s ∈ evil_team
      · unfold stepEvil
        rw [if_pos hmem, recordGuess_wrong_tag s a htag,
          resolveGuesses_not_full (advance s) hfull]
        rfl
      · unfold stepEvil
        rw [if_neg hmem]
        rfl
  · rw [step_eq_assassination s a hlive hphase]
    unfold stepAssassination
    rcases hcase with hrole | htag
    · rw [if_pos hrole]
      rfl
    · by_cases hrole : dictGet s.roles (currentAgent s) ≠ some Assassin
      · rw [if_pos hrole]
        rfl
      · rw [if_neg hrole, if_neg htag]
        rfl

/-- Witness for `C9_invalid_action_noop`: in the reset state with identity
seating, a vote action submitted during `TEAM_PROPOSAL` (wrong tag for the
phase) only advances the scheduler. -/
theorem C9_invalid_action_noop_witness :
    step (resetState possible_agents) ⟨1, [], 1, 0⟩ =
      some { resetState possible_agents with selector_idx := 1 } :=
  (C9_invalid_action_noop (resetState possible_agents) ⟨1, [], 1, 0⟩ (by decide)
    (Or.inl ⟨by decide, Merlin, by decide, Or.inr (Or.inr (by decide))⟩)).trans
    (by decide)

/-! ## C10: buffer lifecycle -/

lemma phase_clash {x p q : Phase} (hx : x = p) (hx2 : x = q) (hne : ¬ p = q) :
    False := hne (hx.symm.trans hx2)

lemma resolveQuest_vote_buffer (s : GameState) :
    (resolveQuest s).vote_buffer = s.vote_buffer := by
  unfold resolveQuest
  split
  · split
    · rfl
    · split
      · obtain ⟨t, r, hshape⟩ := assignTerminal_shape (-1) (recordedQuestState s)
        rw [hshape]
        rfl
      · rfl
  · rfl

lemma stepQuest_vote_buffer (s : GameState) (a : GameAction) :
    (stepQuest s a).vote_buffer = s.vote_buffer := by
  unfold stepQuest
  split
  · rw [resolveQuest_vote_buffer]
    unfold recordQuest
    split <;> rfl
  · rfl

lemma stepQuest_quest_buffer_cases (s : GameState) (a : GameAction) :
    (stepQuest s a).quest_buffer = s.quest_buffer ∨
    (stepQuest s a).quest_buffer = dictSet s.quest_buffer (currentAgent s)
      (if currentAgent s ∈ good_team then 1 else a.vote_or_quest) := by
  unfold stepQuest
  split
  · rw [resolveQuest_quest_buffer]
    unfold recordQuest
    split
    · exact Or.inr rfl
    · exact Or.inl rfl
  · exact Or.inl rfl

lemma stepEvil_buffers (s : GameState) (a : GameAction) :
    (stepEvil s a).vote_buffer = s.vote_buffer ∧
    (stepEvil s a).quest_buffer = s.quest_buffer := by
  unfold stepEvil
  split
  · unfold resolveGuesses
    split
    · unfold recordGuess
      split <;> exact ⟨rfl, rfl⟩
    · unfold recordGuess
      split <;> exact ⟨rfl, rfl⟩
  · exact ⟨rfl, rfl⟩

/-- **C10**, as amended: the vote and quest buffers are only ever reset *in
full* — a step either leaves a buffer untouched, records one entry into it,
or resets it whole to empty — and the full reset happens when the phase that
refills the buffer is entered: the vote buffer is emptied by the valid
proposal that moves the game to `TEAM_VOTE`, and the quest buffer by the
approval that moves it to `QUEST` (not at the moment the buffer is
consumed, as the original claim stated). -/
theorem C10_buffers_reset_whole (s : GameState) (a : GameAction) (s' : GameState)
    (hstep : step s a = some s') :
    (s'.vote_buffer = [] ∨ s'.vote_buffer = s.vote_buffer ∨
      s'.vote_buffer = dictSet s.vote_buffer (currentAgent s) a.vote_or_quest) ∧
    (s'.quest_buffer = [] ∨ s'.quest_buffer = s.quest_buffer ∨
      s'.quest_buffer = dictSet s.quest_buffer (currentAgent s)
        (if currentAgent s ∈ good_team then 1 else a.vote_or_quest)) ∧
    (s.phase = .TEAM_PROPOSAL → s'.phase = .TEAM_VOTE → s'.vote_buffer = []) ∧
    (s.phase = .TEAM_VOTE → s'.phase = .QUEST → s'.quest_buffer = []) := by
  unfold step at hstep
  split at hstep
  · exact Option.noConfusion hstep
  · cases hstep
    exact ⟨Or.inr (Or.inl rfl), Or.inr (Or.inl rfl),
      fun h1 h2 => (phase_clash h1 h2 (by decide)).elim,
      fun h1 h2 => (phase_clash h1 h2 (by decide)).elim⟩
  case _ hlive =>
    split at hstep
    case _ heqp =>
      unfold stepProposal at hstep
      split at hstep
      · exact Option.noConfusion hstep
      case _ leader hL =>
        split at hstep
        · cases hstep
          exact ⟨Or.inr (Or.inl rfl), Or.inr (Or.inl rfl),
            fun h1 h2 => (phase_clash heqp h2 (by decide)).elim,
            fun h1 h2 => (phase_clash heqp h1 (by decide)).elim⟩
        · split at hstep
          · split at hstep
            · exact Option.noConfusion hstep
            · split at hstep
              · cases hstep
                exact ⟨Or.inr (Or.inl rfl), Or.inr (Or.inl rfl),
                  fun h1 h2 => (phase_clash heqp h2 (by decide)).elim,
                  fun h1 h2 => (phase_clash heqp h1 (by decide)).elim⟩
              · split at hstep
                · exact Option.noConfusion hstep
                · cases hstep
                  exact ⟨Or.inl rfl, Or.inr (Or.inl rfl),
                    fun _ _ => rfl,
                    fun h1 h2 => (phase_clash heqp h1 (by decide)).elim⟩
          · cases hstep
            exact ⟨Or.inr (Or.inl rfl), Or.inr (Or.inl rfl),
              fun h1 h2 => (phase_clash heqp h2 (by decide)).elim,
              fun h1 h2 => (phase_clash heqp h1 (by decide)).elim⟩
    case _ heqv =>
      unfold stepVote at hstep
      by_cases htag : a.action_type = 1
      · rw [show recordVote s a =
            { s with vote_buffer := dictSet s.vote_buffer (currentAgent s) a.vote_or_quest }
            from by unfold recordVote; rw [if_pos htag]] at hstep
        unfold resolveVote at hstep
        split at hstep
        · split at hstep
          · exact Option.noConfusion hstep
          · split at hstep
            · cases hstep
              exact ⟨Or.inr (Or.inr rfl), Or.inl rfl,
                fun h1 h2 => (phase_clash heqv h1 (by decide)).elim,
                fun _ _ => rfl⟩
            · split at hstep
              · cases hstep
                obtain ⟨t, r, hshape⟩ := assignTerminal_shape (-1) _
                refine ⟨?_, ?_, ?_, ?_⟩
                · rw [hshape]; exact Or.inr (Or.inr rfl)
                · rw [hshape]; exact Or.inr (Or.inl rfl)
                · intro h1 h2
                  exact (phase_clash heqv h1 (by decide)).elim
                · intro h1 h2
                  rw [hshape] at h2
                  exact (phase_clash heqv (show s.phase = .QUEST from h2) (by decide)).elim
              · cases hstep
                exact ⟨Or.inr (Or.inr rfl), Or.inr (Or.inl rfl),
                  fun h1 h2 => (phase_clash heqv h1 (by decide)).elim,
                  fun h1 h2 => Phase.noConfusion h2⟩
        · cases hstep
          exact ⟨Or.inr (Or.inr rfl), Or.inr (Or.inl rfl),
            fun h1 h2 => (phase_clash heqv h1 (by decide)).elim,
            fun h1 h2 => (phase_clash heqv (show s.phase = .QUEST from h2) (by decide)).elim⟩
      · rw [show recordVote s a = s from by unfold recordVote; rw [if_neg htag]] at hstep
        unfold resolveVote at hstep
        split at hstep
        · split at hstep
          · exact Option.noConfusion hstep
          · split at hstep
            · cases hstep
              exact ⟨Or.inr (Or.inl rfl), Or.inl rfl,
                fun h1 h2 => (phase_clash heqv h1 (by decide)).elim,
                fun _ _ => rfl⟩
            · split at hstep
              · cases hstep
                obtain ⟨t, r, hshape⟩ := assignTerminal_shape (-1) _
                refine ⟨?_, ?_, ?_, ?_⟩
                · rw [hshape]; exact Or.inr (Or.inl rfl)
                · rw [hshape]; exact Or.inr (Or.inl rfl)
                · intro h1 h2
                  exact (phase_clash heqv h1 (by decide)).elim
                · intro h1 h2
                  rw [hshape] at h2
                  exact (phase_clash heqv (show s.phase = .QUEST from h2) (by decide)).elim
              · cases hstep
                exact ⟨Or.inr (Or.inl rfl), Or.inr (Or.inl rfl),
                  fun h1 h2 => (phase_clash heqv h1 (by decide)).elim,
                  fun h1 h2 => Phase.noConfusion h2⟩
        · cases hstep
          exact ⟨Or.inr (Or.inl rfl), Or.inr (Or.inl rfl),
            fun h1 h2 => (phase_clash heqv h1 (by decide)).elim,
            fun h1 h2 => (phase_clash heqv (show s.phase = .QUEST from h2) (by decide)).elim⟩
    case _ heqq =>
      cases hstep
      refine ⟨Or.inr (Or.inl (stepQuest_vote_buffer s a)), ?_, ?_, ?_⟩
      · rcases stepQuest_quest_buffer_cases s a with h | h
        · exact Or.inr (Or.inl h)
        · exact Or.inr (Or.inr h)
      · intro h1 _
        exact (phase_clash heqq h1 (by decide)).elim
      · intro h1 _
        exact (phase_clash heqq h1 (by decide)).elim
    case _ heqe =>
      cases hstep
      obtain ⟨hv, hq⟩ := stepEvil_buffers s a
      exact ⟨Or.inr (Or.inl hv), Or.inr (Or.inl hq),
        fun h1 _ => (phase_clash heqe h1 (by decide)).elim,
        fun h1 _ => (phase_clash heqe h1 (by decide)).elim⟩
    case _ heqa =>
      unfold stepAssassination at hstep
      split at hstep
      · cases hstep
        exact ⟨Or.inr (Or.inl rfl), Or.inr (Or.inl rfl),
          fun h1 _ => (phase_clash heqa h1 (by decide)).elim,
          fun h1 _ => (phase_clash heqa h1 (by decide)).elim⟩
      · split at hstep
        · split at hstep
          · exact Option.noConfusion hstep
          · split at hstep
            · cases hstep
              obtain ⟨t, r, hshape⟩ := assignTerminal_shape (-1) s
              refine ⟨?_, ?_, ?_, ?_⟩
              · rw [hshape]; exact Or.inr (Or.inl rfl)
              · rw [hshape]; exact Or.inr (Or.inl rfl)
              · intro h1 _
                exact (phase_clash heqa h1 (by decide)).elim
              · intro h1 _
                exact (phase_clash heqa h1 (by decide)).elim
            · cases hstep
              obtain ⟨t, r, hshape⟩ := assignTerminal_shape 1 s
              refine ⟨?_, ?_, ?_, ?_⟩
              · rw [hshape]; exact Or.inr (Or.inl rfl)
              · rw [hshape]; exact Or.inr (Or.inl rfl)
              · intro h1 _
                exact (phase_clash heqa h1 (by decide)).elim
              · intro h1 _
                exact (phase_clash heqa h1 (by decide)).elim
        · cases hstep
          exact ⟨Or.inr (Or.inl rfl), Or.inr (Or.inl rfl),
            fun h1 _ => (phase_clash heqa h1 (by decide)).elim,
            fun h1 _ => (phase_clash heqa h1 (by decide)).elim⟩

/-- The successor of `stateC10` after the sixth approval vote: the proposal
is approved, the quest buffer is reset whole, the stale vote buffer is kept. -/
def stateC10' : GameState :=
  { resetState possible_agents with
    phase := .QUEST
    proposed_team := [Merlin, Morgana]
    current_mission_team := [Merlin, Morgana]
    vote_buffer :=
      [(Merlin, 1), (Morgana, 1), (Percival, 1), (Assassin, 1),
       (Generic_Good_1, 1), (Generic_Good_2, 1)]
    all_votes_history := [1, 1, 1, 1, 1, 1]
    selector_idx := 0 }

/-- Witness for `C10_buffers_reset_whole`: the approval that enters `QUEST`
resets the quest buffer to empty, and the vote buffer evolves by a single
whole-buffer-preserving record operation. -/
theorem C10_buffers_reset_whole_witness :
    step stateC10 ⟨1, [], 1, 0⟩ = some stateC10' ∧
    stateC10'.quest_buffer = [] ∧
    (stateC10'.vote_buffer = [] ∨ stateC10'.vote_buffer = stateC10.vote_buffer ∨
      stateC10'.vote_buffer =
        dictSet stateC10.vote_buffer (currentAgent stateC10) 1) :=
  ⟨by decide,
    (C10_buffers_reset_whole stateC10 ⟨1, [], 1, 0⟩ stateC10' (by decide)).2.2.2
      (by decide) (by decide),
    (C10_buffers_reset_whole stateC10 ⟨1, [], 1, 0⟩ stateC10' (by decide)).1⟩

/-! ## C1: terminal branches terminate everyone and pay opposite rewards -/

lemma recordVote_rewards (s : GameState) (a : GameAction) :
    (recordVote s a).rewards = s.rewards := by
  unfold recordVote; split <;> rfl

lemma recordQuest_rewards (s : GameState) (a : GameAction) :
    (recordQuest s a).rewards = s.rewards := by
  unfold recordQuest; split <;> rfl

lemma recordGuess_rewards (s : GameState) (a : GameAction) :
    (recordGuess s a).rewards = s.rewards := by
  unfold recordGuess; split <;> rfl

lemma resolveVote_term_cases (s s' : GameState) (hstep : resolveVote s = some s') :
    (s'.terminations = s.terminations ∧ s'.rewards = s.rewards) ∨
    ∃ t, t.agents = s.agents ∧ s' = assignTerminal (-1) t := by
  unfold resolveVote at hstep
  split at hstep
  · split at hstep
    · exact Option.noConfusion hstep
    · split at hstep
      · cases hstep; exact Or.inl ⟨rfl, rfl⟩
      · split at hstep
        · cases hstep
          refine Or.inr ⟨_, ?_, rfl⟩
          rfl
        · cases hstep; exact Or.inl ⟨rfl, rfl⟩
  · cases hstep; exact Or.inl ⟨rfl, rfl⟩

lemma stepVote_term_cases (s : GameState) (a : GameAction) (s' : GameState)
    (hstep : stepVote s a = some s') :
    (s'.terminations = s.terminations ∧ s'.rewards = s.rewards) ∨
    ∃ t, t.agents = s.agents ∧ s' = assignTerminal (-1) t := by
  unfold stepVote at hstep
  rcases resolveVote_term_cases _ _ hstep with ⟨h1, h2⟩ | ⟨t, ht, heq⟩
  · exact Or.inl ⟨h1.trans ((recordVote_fields s a).2.2.2),
      h2.trans (recordVote_rewards s a)⟩
  · exact Or.inr ⟨t, ht.trans ((recordVote_fields s a).1), heq⟩

lemma resolveQuest_term_cases (s : GameState) :
    ((resolveQuest s).terminations = s.terminations ∧
      (resolveQuest s).rewards = s.rewards) ∨
    ∃ t, t.agents = s.agents ∧ resolveQuest s = assignTerminal (-1) t := by
  by_cases h1 : s.quest_buffer.length = s.current_mission_team.length
  · by_cases h2 : goodWins (recordedQuestState s) = 3
    · left
      rw [show resolveQuest s = { recordedQuestState s with
            phase := .EVIL_DISCUSSION, evil_guesses_buffer := [] }
          from by unfold resolveQuest; rw [if_pos h1, if_pos h2]]
      exact ⟨rfl, rfl⟩
    · by_cases h3 : evilWins (recordedQuestState s) = 3
      · right
        refine ⟨recordedQuestState s, rfl, ?_⟩
        unfold resolveQuest
        rw [if_pos h1, if_neg h2, if_pos h3]
      · left
        rw [show resolveQuest s = { recordedQuestState s with
              mission_number := s.mission_number + 1
              leader_index := (s.leader_index + 1) % s.agents.length
              proposed_team := []
              current_mission_team := []
              reject_count := 0
              phase := .TEAM_PROPOSAL }
            from by unfold resolveQuest; rw [if_pos h1, if_neg h2, if_neg h3]]
        exact ⟨rfl, rfl⟩
  · rw [resolveQuest_not_full s h1]
    exact Or.inl ⟨rfl, rfl⟩

lemma stepQuest_term_cases (s : GameState) (a : GameAction) :
    ((stepQuest s a).terminations = s.terminations ∧
      (stepQuest s a).rewards = s.rewards) ∨
    ∃ t, t.agents = s.agents ∧ stepQuest s a = assignTerminal (-1) t := by
  unfold stepQuest
  by_cases hmem : currentAgent s ∈ s.current_mission_team
  · rw [if_pos hmem]
    rcases resolveQuest_term_cases (advance (recordQuest s a)) with ⟨h1, h2⟩ | ⟨t, ht, heq⟩
    · exact Or.inl ⟨h1.trans ((recordQuest_fields s a).2.2.2),
        h2.trans (recordQuest_rewards s a)⟩
    · exact Or.inr ⟨t, ht.trans ((recordQuest_fields s a).1), heq⟩
  · rw [if_neg hmem]
    exact Or.inl ⟨rfl, rfl⟩

lemma stepEvil_noterm (s : GameState) (a : GameAction) :
    (stepEvil s a).terminations = s.terminations ∧
    (stepEvil s a).rewards = s.rewards := by
  unfold stepEvil
  by_cases hmem : currentAgent s ∈ evil_team
  · rw [if_pos hmem]
    by_cases hfull : (advance (recordGuess s a)).evil_guesses_buffer.length =
        evil_team.length
    · rw [show resolveGuesses (advance (recordGuess s a)) =
          { advance (recordGuess s a) with
            evil_merlin_votes := ((advance (recordGuess s a)).evil_guesses_buffer.foldl
              (fun m p => m.set (possible_agents.indexOf p.1) p.2)
              (advance (recordGuess s a)).evil_merlin_votes)
            phase := .ASSASSINATION }
          from by unfold resolveGuesses; rw [if_pos hfull]]
      exact ⟨(recordGuess_fields s a).2.2.2, recordGuess_rewards s a⟩
    · rw [resolveGuesses_not_full _ hfull]
      exact ⟨(recordGuess_fields s a).2.2.2, recordGuess_rewards s a⟩
  · rw [if_neg hmem]
    exact ⟨rfl, rfl⟩

/-- **C1**: a live step either leaves the termination flags and rewards
untouched, or it is a terminal branch (5th rejection, a faction's third
mission, assassination resolution): then every seated agent is marked
terminated and rewarded `w` for Good-faction members and `-w` for
Evil-faction members, with `w = -1` (Evil wins) on the vote/quest terminals
and, on the assassination terminal, `w = -1` exactly when the target's role
is Merlin. -/
theorem C1_terminal_rewards (s : GameState) (a : GameAction) (s' : GameState)
    (hlive : dictGet s.terminations (currentAgent s) = some false)
    (hstep : step s a = some s') :
    (s'.terminations = s.terminations ∧ s'.rewards = s.rewards) ∨
    ((∀ ag ∈ s.agents, dictGet s'.terminations ag = some true) ∧
     ∃ w : Int, (w = 1 ∨ w = -1) ∧
       (∀ ag ∈ s.agents, ag ∈ good_team → dictGet s'.rewards ag = some w) ∧
       (∀ ag ∈ s.agents, ag ∉ good_team → dictGet s'.rewards ag = some (-w)) ∧
       ((s.phase = .TEAM_VOTE ∨ s.phase = .QUEST) → w = -1) ∧
       (s.phase = .ASSASSINATION →
         ∃ t, pyIndex possible_agents a.target_player = some t ∧
           (w = -1 ↔ dictGet s.roles t = some Merlin))) := by
  unfold step at hstep
  split at hstep
  · exact Option.noConfusion hstep
  · cases hstep; exact Or.inl ⟨rfl, rfl⟩
  case _ hlive2 =>
    split at hstep
    case _ heqp =>
      unfold stepProposal at hstep
      split at hstep
      · exact Option.noConfusion hstep
      · split at hstep
        · cases hstep; exact Or.inl ⟨rfl, rfl⟩
        · split at hstep
          · split at hstep
            · exact Option.noConfusion hstep
            · split at hstep
              · cases hstep; exact Or.inl ⟨rfl, rfl⟩
              · split at hstep
                · exact Option.noConfusion hstep
                · cases hstep; exact Or.inl ⟨rfl, rfl⟩
          · cases hstep; exact Or.inl ⟨rfl, rfl⟩
    case _ heqv =>
      rcases stepVote_term_cases s a s' hstep with ⟨h1, h2⟩ | ⟨t, ht, heq⟩
      · exact Or.inl ⟨h1, h2⟩
      · subst heq
        refine Or.inr ⟨?_, -1, Or.inr rfl, ?_, ?_, fun _ => rfl,
          fun h => (phase_clash heqv h (by decide)).elim⟩
        · intro ag hag
          exact assignTerminal_term (-1) t ag (ht.symm ▸ hag)
        · intro ag hag hgood
          rw [assignTerminal_reward (-1) t ag (ht.symm ▸ hag), if_pos hgood]
        · intro ag hag hgood
          rw [assignTerminal_reward (-1) t ag (ht.symm ▸ hag), if_neg hgood]
    case _ heqq =>
      cases hstep
      rcases stepQuest_term_cases s a with ⟨h1, h2⟩ | ⟨t, ht, heq⟩
      · exact Or.inl ⟨h1, h2⟩
      · rw [heq]
        refine Or.inr ⟨?_, -1, Or.inr rfl, ?_, ?_, fun _ => rfl,
          fun h => (phase_clash heqq h (by decide)).elim⟩
        · intro ag hag
          exact assignTerminal_term (-1) t ag (ht.symm ▸ hag)
        · intro ag hag hgood
          rw [assignTerminal_reward (-1) t ag (ht.symm ▸ hag), if_pos hgood]
        · intro ag hag hgood
          rw [assignTerminal_reward (-1) t ag (ht.symm ▸ hag), if_neg hgood]
    case _ heqe =>
      cases hstep
      exact Or.inl (stepEvil_noterm s a)
    case _ heqa =>
      unfold stepAssassination at hstep
      split at hstep
      · cases hstep; exact Or.inl ⟨rfl, rfl⟩
      · split at hstep
        · split at hstep
          · exact Option.noConfusion hstep
          case _ target htarget =>
            split at hstep
            case isTrue hrole =>
              cases hstep
              refine Or.inr ⟨?_, -1, Or.inr rfl, ?_, ?_,
                fun h => rfl,
                fun _ => ⟨target, htarget, iff_of_true rfl hrole⟩⟩
              · intro ag hag
                rw [show (advance (assignTerminal (-1) s)).terminations =
                    (assignTerminal (-1) s).terminations from rfl]
                exact assignTerminal_term (-1) s ag hag
              · intro ag hag hgood
                rw [show (advance (assignTerminal (-1) s)).rewards =
                    (assignTerminal (-1) s).rewards from rfl,
                  assignTerminal_reward (-1) s ag hag, if_pos hgood]
              · intro ag hag hgood
                rw [show (advance (assignTerminal (-1) s)).rewards =
                    (assignTerminal (-1) s).rewards from rfl,
                  assignTerminal_reward (-1) s ag hag, if_neg hgood]
            case isFalse hrole =>
              cases hstep
              refine Or.inr ⟨?_, 1, Or.inl rfl, ?_, ?_,
                fun h => (h.elim
                  (fun hv => (phase_clash heqa hv (by decide)).elim)
                  (fun hq => (phase_clash heqa hq (by decide)).elim)),
                fun _ => ⟨target, htarget, iff_of_false (by decide) hrole⟩⟩
              · intro ag hag
                rw [show (advance (assignTerminal 1 s)).terminations =
                    (assignTerminal 1 s).terminations from rfl]
                exact assignTerminal_term 1 s ag hag
              · intro ag hag hgood
                rw [show (advance (assignTerminal 1 s)).rewards =
                    (assignTerminal 1 s).rewards from rfl,
                  assignTerminal_reward 1 s ag hag, if_pos hgood]
              · intro ag hag hgood
                rw [show (advance (assignTerminal 1 s)).rewards =
                    (assignTerminal 1 s).rewards from rfl,
                  assignTerminal_reward 1 s ag hag, if_neg hgood]
        · cases hstep; exact Or.inl ⟨rfl, rfl⟩

/-- A `TEAM_VOTE` state (identity seating) with four prior rejections, five
reject votes buffered and the sixth voter to act: the next rejection is the
fifth. -/
def stateC1 : GameState :=
  { resetState possible_agents with
    phase := .TEAM_VOTE
    proposed_team := [Merlin, Morgana]
    reject_count := 4
    selector_idx := 5
    vote_buffer :=
      [(Merlin, 0), (Morgana, 0), (Percival, 0), (Assassin, 0), (Generic_Good_1, 0)] }

/-- The successor of `stateC1` after the sixth reject vote: the reject
counter reaches 5, everyone is terminated, Good gets −1 and Evil +1. -/
def stateC1' : GameState :=
  { resetState possible_agents with
    phase := .TEAM_VOTE
    proposed_team := [Merlin, Morgana]
    reject_count := 5
    selector_idx := 0
    vote_buffer :=
      [(Merlin, 0), (Morgana, 0), (Percival, 0), (Assassin, 0),
       (Generic_Good_1, 0), (Generic_Good_2, 0)]
    all_votes_history := [0, 0, 0, 0, 0, 0]
    terminations := possible_agents.map (fun a => (a, true))
    rewards := possible_agents.map (fun a => (a, if a ∈ good_team then (-1 : Int) else 1)) }

/-- Witness for `C1_terminal_rewards`: the fifth rejection terminates every
agent, pays Merlin (Good) −1 and the Assassin (Evil) +1. -/
theorem C1_terminal_rewards_witness :
    step stateC1 ⟨1, [], 0, 0⟩ = some stateC1' ∧
    dictGet stateC1'.terminations Merlin = some true ∧
    dictGet stateC1'.rewards Merlin = some (-1) ∧
    dictGet stateC1'.rewards Assassin = some 1 := by
  have h := C1_terminal_rewards stateC1 ⟨1, [], 0, 0⟩ stateC1' (by decide) (by decide)
  rcases h with ⟨ht, _⟩ | ⟨hterm, w, _, hg, hb, hvq, _⟩
  · exact absurd ht (by decide)
  · have hw : w = -1 := hvq (Or.inl rfl)
    subst hw
    refine ⟨by decide, hterm Merlin (by decide), hg Merlin (by decide) (by decide), ?_⟩
    have hba := hb Assassin (by decide) (by decide)
    simpa using hba

/-! ## C7: the reject counter -/

lemma recordQuest_phase (s : GameState) (a : GameAction) :
    (recordQuest s a).phase = s.phase := by
  unfold recordQuest; split <;> rfl

/-- **C7**: (1) in every reachable state the reject counter is at most 5 (it
is a `Nat`, hence in `[0,5]`); (2) when a vote resolution fires, an approval
resets the counter to 0 and enters `QUEST`, while a rejection increments it
by exactly 1 — reaching exactly 5 terminates the game at once with Evil
winning (everyone terminated, Good −1 / Evil +1) regardless of mission
progress, and otherwise rotates the leader to `(leader+1) mod agent_count`,
discards the proposed team and returns to `TEAM_PROPOSAL`; (3) a mission
completion that returns to `TEAM_PROPOSAL` also resets the counter to 0. -/
theorem C7_reject_counter :
    (∀ s, Reachable s → s.reject_count ≤ 5) ∧
    (∀ s a (s' : GameState), s.phase = .TEAM_VOTE →
      dictGet s.terminations (currentAgent s) = some false →
      step s a = some s' →
      (recordVote s a).vote_buffer.length = s.agents.length →
      ((s.agents.length / 2 + 1 ≤ sumValues (recordVote s a).vote_buffer ∧
          s'.reject_count = 0 ∧ s'.phase = .QUEST) ∨
       (¬ (s.agents.length / 2 + 1 ≤ sumValues (recordVote s a).vote_buffer) ∧
          s'.reject_count = s.reject_count + 1 ∧
          (s.reject_count + 1 = 5 →
            ∀ ag ∈ s.agents, dictGet s'.terminations ag = some true ∧
              dictGet s'.rewards ag = some (if ag ∈ good_team then (-1 : Int) else 1)) ∧
          (s.reject_count + 1 ≠ 5 →
            s'.leader_index = (s.leader_index + 1) % s.agents.length ∧
            s'.proposed_team = [] ∧ s'.phase = .TEAM_PROPOSAL)))) ∧
    (∀ s a (s' : GameState), s.phase = .QUEST →
      dictGet s.terminations (currentAgent s) = some false →
      step s a = some s' →
      s'.mission_results.length = s.mission_results.length + 1 →
      s'.phase = .TEAM_PROPOSAL →
      s'.reject_count = 0) := by
  refine ⟨fun s h => (reachable_inv h).reject_le, ?_, ?_⟩
  · intro s a s' hphase hlive hstep hfull
    rw [step_eq_vote s a hlive hphase] at hstep
    unfold stepVote at hstep
    by_cases htag : a.action_type = 1
    · rw [show recordVote s a = { s with
          vote_buffer := dictSet s.vote_buffer (currentAgent s) a.vote_or_quest }
          from by unfold recordVote; rw [if_pos htag]] at hstep hfull ⊢
      unfold resolveVote at hstep
      rw [if_pos (show (advance { s with
          vote_buffer := dictSet s.vote_buffer (currentAgent s) a.vote_or_quest }).vote_buffer.length =
          (advance { s with
            vote_buffer := dictSet s.vote_buffer (currentAgent s) a.vote_or_quest }).agents.length
          from hfull)] at hstep
      split at hstep
      · exact Option.noConfusion hstep
      · split at hstep
        next hcond =>
          cases hstep
          exact Or.inl ⟨hcond, rfl, rfl⟩
        next hcond =>
          split at hstep
          next h5 =>
            cases hstep
            refine Or.inr ⟨hcond, ?_, ?_, ?_⟩
            · obtain ⟨t, r, hshape⟩ := assignTerminal_shape (-1) _
              rw [hshape]
              rfl
            · intro _ ag hag
              constructor
              · exact assignTerminal_term _ _ ag hag
              · refine (assignTerminal_reward _ _ ag ?_).trans ?_
                · exact hag
                · by_cases hg : ag ∈ good_team <;> simp [hg]
            · intro hne
              exact absurd (show s.reject_count + 1 = 5 from h5) hne
          next h5 =>
            cases hstep
            exact Or.inr ⟨hcond, rfl,
              fun h5x => absurd h5x (show s.reject_count + 1 ≠ 5 from h5),
              fun _ => ⟨rfl, rfl, rfl⟩⟩
    · rw [show recordVote s a = s
          from by unfold recordVote; rw [if_neg htag]] at hstep hfull ⊢
      unfold resolveVote at hstep
      rw [if_pos (show (advance s).vote_buffer.length = (advance s).agents.length
          from hfull)] at hstep
      split at hstep
      · exact Option.noConfusion hstep
      · split at hstep
        next hcond =>
          cases hstep
          exact Or.inl ⟨hcond, rfl, rfl⟩
        next hcond =>
          split at hstep
          next h5 =>
            cases hstep
            refine Or.inr ⟨hcond, ?_, ?_, ?_⟩
            · obtain ⟨t, r, hshape⟩ := assignTerminal_shape (-1) _
              rw [hshape]
              rfl
            · intro _ ag hag
              constructor
              · exact assignTerminal_term _ _ ag hag
              · refine (assignTerminal_reward _ _ ag ?_).trans ?_
                · exact hag
                · by_cases hg : ag ∈ good_team <;> simp [hg]
            · intro hne
              exact absurd (show s.reject_count + 1 = 5 from h5) hne
          next h5 =>
            cases hstep
            exact Or.inr ⟨hcond, rfl,
              fun h5x => absurd h5x (show s.reject_count + 1 ≠ 5 from h5),
              fun _ => ⟨rfl, rfl, rfl⟩⟩
  · intro s a s' hphase hlive hstep hlen hph
    rw [step_eq_quest s a hlive hphase] at hstep
    cases hstep
    unfold stepQuest at hlen hph ⊢
    by_cases hmem : currentAgent s ∈ s.current_mission_team
    · rw [if_pos hmem] at hlen hph ⊢
      by_cases h1 : (advance (recordQuest s a)).quest_buffer.length =
          (advance (recordQuest s a)).current_mission_team.length
      · by_cases h2 : goodWins (recordedQuestState (advance (recordQuest s a))) = 3
        · rw [show resolveQuest (advance (recordQuest s a)) =
              { recordedQuestState (advance (recordQuest s a)) with
                phase := .EVIL_DISCUSSION, evil_guesses_buffer := [] }
              from by unfold resolveQuest; rw [if_pos h1, if_pos h2]] at hph
          exact Phase.noConfusion hph
        · by_cases h3 : evilWins (recordedQuestState (advance (recordQuest s a))) = 3
          · rw [show resolveQuest (advance (recordQuest s a)) =
                assignTerminal (-1) (recordedQuestState (advance (recordQuest s a)))
                from by unfold resolveQuest; rw [if_pos h1, if_neg h2, if_pos h3]] at hph
            obtain ⟨t, r, hshape⟩ :=
              assignTerminal_shape (-1) (recordedQuestState (advance (recordQuest s a)))
            rw [hshape] at hph
            have hph2 : (recordQuest s a).phase = .TEAM_PROPOSAL := hph
            rw [recordQuest_phase s a] at hph2
            exact (phase_clash hphase hph2 (by decide)).elim
          · rw [show resolveQuest (advance (recordQuest s a)) =
                { recordedQuestState (advance (recordQuest s a)) with
                  mission_number := (advance (recordQuest s a)).mission_number + 1
                  leader_index := ((advance (recordQuest s a)).leader_index + 1) %
                    (advance (recordQuest s a)).agents.length
                  proposed_team := []
                  current_mission_team := []
                  reject_count := 0
                  phase := .TEAM_PROPOSAL }
                from by unfold resolveQuest; rw [if_pos h1, if_neg h2, if_neg h3]]
      · rw [resolveQuest_not_full _ h1] at hlen
        have hsame : (advance (recordQuest s a)).mission_results.length =
            s.mission_results.length := congrArg List.length (recordQuest_keeps s a).1
        omega
    · rw [if_neg hmem] at hlen
      have hsame : (advance s).mission_results.length = s.mission_results.length := rfl
      omega

/-- Witness for `C7_reject_counter`: the reset state's counter is in bounds,
and in `stateC1` the sixth reject vote (fifth rejection) increments the
counter from 4 to 5 and terminates Percival (Good) with reward −1. -/
theorem C7_reject_counter_witness :
    (resetState possible_agents).reject_count ≤ 5 ∧
    stateC1'.reject_count = stateC1.reject_count + 1 ∧
    dictGet stateC1'.terminations Percival = some true ∧
    dictGet stateC1'.rewards Percival = some (-1) := by
  refine ⟨C7_reject_counter.1 _ (Reachable.reset _ (List.Perm.refl _)), ?_⟩
  have h := C7_reject_counter.2.1 stateC1 ⟨1, [], 0, 0⟩ stateC1'
    (by decide) (by decide) (by decide) (by decide)
  rcases h with ⟨hc, _, _⟩ | ⟨_, hinc, hterm, _⟩
  · exact absurd hc (by decide)
  · have h5 := hterm (by decide) Percival (by decide)
    exact ⟨hinc, h5.1, h5.2.trans (by decide)⟩

/-! ## C8: role-conditioned information hiding in `observe` -/

lemma observe_known_spies (s : GameState) (ag : Agent) :
    (observe s ag).known_spies =
      if ag ∈ evil_team ∨ dictGet s.roles ag = some Merlin then
        markLoop (fun o => o ∈ evil_team) (relativeOrder s ag) 0 (List.replicate 6 0)
      else List.replicate 6 0 := rfl

lemma observe_percival_view (s : GameState) (ag : Agent) :
    (observe s ag).percival_view =
      if dictGet s.roles ag = some Percival then
        markLoop (fun o => dictGet s.roles o = some Merlin ∨ dictGet s.roles o = some Morgana)
          (relativeOrder s ag) 0 (List.replicate 6 0)
      else List.replicate 6 0 := rfl

lemma mem_possible_agents (ag : Agent) : ag ∈ possible_agents := by
  cases ag <;> decide

lemma roles_self {s : GameState} (h : GameInv s) (ag : Agent) :
    dictGet s.roles ag = some ag := by
  rw [h.roles_id, dictGet_map_pair,
    if_pos (h.perm.mem_iff.mpr (mem_possible_agents ag))]

lemma relativeOrder_length6 {s : GameState} (h : GameInv s) (ag : Agent) :
    (relativeOrder s ag).length = 6 := by
  rw [relativeOrder_length, h.perm.length_eq]
  rfl

/-- **C8**: for every reachable state, `known_spies` is all-zero unless the
requester is Evil-faction or Merlin, in which case it marks exactly the Evil
agents at their seat-relative positions; and `percival_view` is all-zero
unless the requester is Percival, in which case it marks exactly Merlin and
Morgana at their seat-relative positions. -/
theorem C8_information_hiding (s : GameState) (hR : Reachable s) (ag : Agent) :
    ((ag ∉ evil_team ∧ ag ≠ Merlin) →
      (observe s ag).known_spies = List.replicate 6 0) ∧
    ((ag ∈ evil_team ∨ ag = Merlin) →
      ∀ i o, (relativeOrder s ag).get? i = some o →
        (observe s ag).known_spies.get? i = some (if o ∈ evil_team then 1 else 0)) ∧
    (ag ≠ Percival → (observe s ag).percival_view = List.replicate 6 0) ∧
    (ag = Percival →
      ∀ i o, (relativeOrder s ag).get? i = some o →
        (observe s ag).percival_view.get? i =
          some (if o = Merlin ∨ o = Morgana then 1 else 0)) := by
  have hinv := reachable_inv hR
  have hrole := roles_self hinv ag
  refine ⟨?_, ?_, ?_, ?_⟩
  · intro ⟨hev, hM⟩
    rw [observe_known_spies, if_neg]
    rintro (h | h)
    · exact hev h
    · rw [hrole] at h
      exact hM (Option.some.inj h)
  · intro hq i o horder
    rw [observe_known_spies, if_pos, markLoop_zeros _ _ (relativeOrder_length6 hinv ag),
      List.get?_map, horder]
    · rfl
    · rcases hq with hev | hM
      · exact Or.inl hev
      · exact Or.inr (by rw [hrole, hM])
  · intro hP
    rw [observe_percival_view, if_neg]
    intro h
    rw [hrole] at h
    exact hP (Option.some.inj h)
  · intro hP i o horder
    have ho : o ∈ s.agents :=
      (relativeOrder_perm s ag).subset (List.get?_mem horder)
    have hro : dictGet s.roles o = some o := roles_self hinv o
    rw [observe_percival_view, if_pos (by rw [hrole, hP]),
      markLoop_zeros _ _ (relativeOrder_length6 hinv ag), List.get?_map, horder]
    simp [hro]

/-- Witness for `C8_information_hiding`: in the reset state with identity
seating, Percival's `known_spies` is all-zero while `percival_view` marks
Merlin (seat-relative position 4 from Percival's seat 2). -/
theorem C8_information_hiding_witness :
    (observe (resetState possible_agents) Percival).known_spies =
      List.replicate 6 0 ∧
    (observe (resetState possible_agents) Percival).percival_view.get? 4 = some 1 := by
  have h := C8_information_hiding (resetState possible_agents)
    (Reachable.reset _ (List.Perm.refl _)) Percival
  refine ⟨h.1 (by decide), ?_⟩
  have h4 := h.2.2.2 rfl 4 Merlin (by decide)
  exact h4.trans (by decide)
